import Mathlib

/-!
Verification of the resilient broker-connectivity client
(`app/services/ironbeam_client.py`, class `IronbeamClient`).

The client is embedded shallowly: the mutable object state becomes the
structure `ClientState`, asyncio futures become the `FutureState` type,
the Python dict `pending_requests` becomes a heap-like association list
(entries stay in the list when popped from the dict, with `live := false`,
because the caller still holds the future object), exceptions become
`Except PyErr`, and the behaviour of the remote transport is a parameter
(`Wire`, or an outcome function for the reconnect loop).
-/

namespace Ironbeam

/-- Python exceptions that the client code can raise or catch. -/
inductive PyErr
  | jsonDecode
  | invalidState
  | notConnected
  | sendFailed
  | timedOut (rid : String) (t : Nat)
  | handlerErr (msg : String)
  deriving DecidableEq, Repr

/-- The fields of a decoded inbound JSON message that the client reads:
`data.get("type")`, `data.get("request_id")`, `data.get("data", {})`
(abstracted as a string payload) and `data.get("message")`. -/
structure MsgData where
  type? : Option String
  requestId? : Option String
  payload : String
  errMsg : Option String
  deriving DecidableEq, Repr

/-- A raw inbound frame: either undecodable (json.loads raises) or a
decoded message. -/
inductive Frame
  | bad (raw : String)
  | ok (d : MsgData)
  deriving DecidableEq, Repr

/-- The state of an asyncio future: unresolved, resolved with a payload,
failed with an exception message, or cancelled (by wait_for's timeout). -/
inductive FutureState
  | pending
  | result (d : MsgData)
  | failed (reason : String)
  | cancelled
  deriving DecidableEq, Repr

/-- Model of `future.done()`: true once resolved, failed or cancelled. -/
def FutureState.done : FutureState → Bool
  | .pending => false
  | _ => true

/-- Model of `future.set_result(d)`: raises InvalidStateError when already done. -/
def FutureState.set_result (f : FutureState) (d : MsgData) : Except PyErr FutureState :=
  if f.done then .error .invalidState else .ok (.result d)

/-- Model of `future.set_exception(e)`: raises InvalidStateError when already done. -/
def FutureState.set_exception (f : FutureState) (reason : String) : Except PyErr FutureState :=
  if f.done then .error .invalidState else .ok (.failed reason)

/-- Model of `future.cancel()`: cancels when not yet done, otherwise a no-op
(never raises). -/
def FutureState.cancel (f : FutureState) : FutureState :=
  if f.done then f else .cancelled

/-- One correlation-table entry: the correlation id, whether the key is
still present in the `pending_requests` dict (`live`), and the future
object itself, which outlives the dict entry because the caller holds it. -/
structure PendingEntry where
  rid : String
  live : Bool
  slot : FutureState
  deriving DecidableEq, Repr

/-! ### Per-entry resolution model (claim C4)

The three ways a given correlation id gets resolved, each translated from
its place in the source: a correlated response in `handle_message`
(pop, then `set_result` guarded by `done()`), the disconnect sweep
(`set_exception` guarded by `done()`, then the dict is cleared), and the
timeout path in `send_with_response` (wait_for cancels the caller's
future, then `pop(request_id, None)`). `Except` exposes the
InvalidStateError that an unguarded second resolution would raise. -/

/-- An attempt to resolve one correlation id. -/
inductive ResolveOp
  | response (d : MsgData)
  | disconnectSweep
  | timeoutPop
  deriving DecidableEq, Repr

/-- Apply one resolution attempt to one table entry, mirroring
`handle_message` (lines 142-146), `disconnect` (lines 102-106) and the
timeout branch of `send_with_response` (lines 303-306). -/
def stepEntry (e : PendingEntry) : ResolveOp → Except PyErr PendingEntry
  | .response d =>
    if e.live then
      if e.slot.done then .ok { e with live := false }
      else do
        let s ← e.slot.set_result d
        .ok { e with live := false, slot := s }
    else .ok e
  | .disconnectSweep =>
    if e.live then
      if e.slot.done then .ok { e with live := false }
      else do
        let s ← e.slot.set_exception "Connection closed"
        .ok { e with live := false, slot := s }
    else .ok e
  | .timeoutPop =>
    .ok { e with live := false, slot := e.slot.cancel }

/-- Apply a sequence of resolution attempts to one entry. -/
def runOps (e : PendingEntry) : List ResolveOp → Except PyErr PendingEntry
  | [] => .ok e
  | op :: ops => do
    let e₁ ← stepEntry e op
    runOps e₁ ops

/-! ### Client state and the correlation-table dict -/

/-- The mutable fields of `IronbeamClient` that the verified behaviour
depends on (`__init__`, lines 40-49). `wsSome` stands for
`self.ws is not None`. -/
structure ClientState where
  connected : Bool
  wsSome : Bool
  subscriptions : List String
  reconnect_attempts : Nat
  max_reconnect_attempts : Nat
  pending_requests : List PendingEntry
  request_id : Nat
  deriving DecidableEq, Repr

/-- Model of `is_connected` (lines 59-61). -/
def is_connected (st : ClientState) : Bool :=
  st.connected && st.wsSome

/-- Model of `request_id in self.pending_requests` / `self.pending_requests[rid]`:
dict lookup sees only live entries. -/
def pendingLookup : List PendingEntry → String → Option FutureState
  | [], _ => none
  | e :: es, rid => if e.live && e.rid == rid then some e.slot else pendingLookup es rid

/-- Model of `self.pending_requests[rid] = future`: a dict assignment of a fresh
pending future; an existing live binding of the same key would be
replaced (its future object merely becomes unreachable from the dict). -/
def pendingInsert (l : List PendingEntry) (rid : String) : List PendingEntry :=
  (l.map fun e => if e.live && e.rid == rid then { e with live := false } else e)
    ++ [⟨rid, true, .pending⟩]

/-- Model of `self.pending_requests.pop(rid, None)`: the key leaves the dict; the
future object is untouched. -/
def pendingPop (l : List PendingEntry) (rid : String) : List PendingEntry :=
  l.map fun e => if e.live && e.rid == rid then { e with live := false } else e

/-- Model of `handle_message`'s response path for key `rid` (lines 142-146):
`pop`, then `set_result(data)` guarded by `done()` — expressed with the
guard already applied (claim C4's model shows the guarded update never
raises). -/
def resolveEntry (l : List PendingEntry) (rid : String) (d : MsgData) : List PendingEntry :=
  l.map fun e =>
    if e.live && e.rid == rid then
      { e with live := false, slot := if e.slot.done then e.slot else .result d }
    else e

/-- Model of `asyncio.wait_for`'s timeout cancels the caller's future object
(a no-op when the future is already done). -/
def pendingCancel (l : List PendingEntry) (rid : String) : List PendingEntry :=
  l.map fun e => if e.rid == rid then { e with slot := e.slot.cancel } else e

/-- The future object a caller of `send_with_response` holds for `rid`:
the most recently registered entry with that id. -/
def callerSlot (l : List PendingEntry) (rid : String) : Option FutureState :=
  (l.reverse.find? fun e => e.rid == rid).map (·.slot)

/-! ### Event dispatch and `handle_message` -/

/-- What the client writes to the socket; only the fields the claims
inspect are kept. -/
inductive SendAction
  | auth
  | subscribeMsg (rid : String) (symbol : String)
  | unsubscribeMsg (rid : String) (symbol : String)
  | orderMsg (rid : String)
  deriving DecidableEq, Repr

/-- Log lines the verified properties refer to. -/
inductive Log
  | decodeFailed
  | handleError
  | errorLogged
  | debugUnhandled
  deriving DecidableEq, Repr

/-- The three optional event callbacks passed to `__init__`; a callback
is an arbitrary effectful function that may raise. -/
structure HandlerEnv where
  onMarketData : Option (String → Except PyErr Unit)
  onOrderUpdate : Option (String → Except PyErr Unit)
  onPositionUpdate : Option (String → Except PyErr Unit)

/-- Invoke an optional callback (only reached when it is registered). -/
def callHandler (h? : Option (String → Except PyErr Unit)) (p : String) : Except PyErr Unit :=
  match h? with
  | some h => h p
  | none => .ok ()

/-- Model of `json.loads(message)`: raises JSONDecodeError on a bad frame. -/
def jsonLoads : Frame → Except PyErr MsgData
  | .bad _ => .error .jsonDecode
  | .ok d => .ok d

/-- Python truthiness of `data.get("request_id")`: `None` and the empty
string are falsy. -/
def ridTruthy : Option String → Bool
  | some r => r != ""
  | none => false

/-- The event-dispatch tail of `handle_message` (lines 148-158): each
branch fires only when the message type matches and the callback is
registered; a raising callback propagates to the enclosing `try`. -/
def dispatchTail (env : HandlerEnv) (st : ClientState) (d : MsgData) :
    Except PyErr (ClientState × List Log) :=
  if d.type? == some "market_data" && env.onMarketData.isSome then do
    callHandler env.onMarketData d.payload
    .ok (st, [])
  else if d.type? == some "order_update" && env.onOrderUpdate.isSome then do
    callHandler env.onOrderUpdate d.payload
    .ok (st, [])
  else if d.type? == some "position_update" && env.onPositionUpdate.isSome then do
    callHandler env.onPositionUpdate d.payload
    .ok (st, [])
  else if d.type? == some "error" then .ok (st, [.errorLogged])
  else .ok (st, [.debugUnhandled])

/-- The body of `handle_message`'s `try` block (lines 136-158): decode,
resolve a pending request on a correlated response, otherwise dispatch. -/
def handleMessageTry (env : HandlerEnv) (st : ClientState) (f : Frame) :
    Except PyErr (ClientState × List Log) := do
  let d ← jsonLoads f
  if ridTruthy d.requestId?
      && (pendingLookup st.pending_requests (d.requestId?.getD "")).isSome then
    .ok ({ st with pending_requests :=
            resolveEntry st.pending_requests (d.requestId?.getD "") d }, [])
  else
    dispatchTail env st d

/-- Model of `handle_message` (lines 134-163): the `try` body with its two
`except` clauses — `json.JSONDecodeError` logs and drops the frame, the
catch-all `except Exception` logs the handler failure; neither re-raises.
The outer `Except` is the exception channel seen by the caller
(`listen`); the theorems show it is always `.ok`. -/
def handle_message (env : HandlerEnv) (st : ClientState) (f : Frame) :
    Except PyErr (ClientState × List Log) :=
  match handleMessageTry env st f with
  | .error .jsonDecode => .ok (st, [.decodeFailed])
  | .error _ => .ok (st, [.handleError])
  | .ok r => .ok r

/-- The read loop's `async for` body (lines 122-123): deliver each frame
to `handle_message`; an exception escaping `handle_message` would abort
the loop (propagate in the `Except` monad). -/
def listenLoop (env : HandlerEnv) (st : ClientState) :
    List Frame → Except PyErr (ClientState × List Log)
  | [] => .ok (st, [])
  | f :: fs => do
    let (st₁, l₁) ← handle_message env st f
    let (st₂, l₂) ← listenLoop env st₁ fs
    .ok (st₂, l₁ ++ l₂)

/-! ### Request-id generation (`_get_request_id`, lines 326-329) -/

/-- Little-endian decimal digits of `n`, with explicit fuel so the
recursion is structural (any `fuel ≥ n` is enough). -/
def decDigits (fuel n : Nat) : List Nat :=
  match fuel with
  | 0 => []
  | fuel + 1 => if n = 0 then [] else n % 10 :: decDigits fuel (n / 10)

/-- Decimal rendering of a natural number, as Python's `str`/f-string
formatting produces for a non-negative `int`. -/
def decRepr (n : Nat) : String :=
  if n = 0 then "0" else ⟨((decDigits n n).reverse.map Nat.digitChar)⟩

/-- The f-string `f"req_{self.request_id}_{int(...timestamp() * 1000)}"`. -/
def mkRequestId (n ts : Nat) : String :=
  "req_" ++ decRepr n ++ "_" ++ decRepr ts

/-- Model of `_get_request_id` (lines 326-329): bump the sequence counter and build
the id from it plus the millisecond timestamp `nowMs`. -/
def get_request_id (st : ClientState) (nowMs : Nat) : String × ClientState :=
  let st' := { st with request_id := st.request_id + 1 }
  (mkRequestId st'.request_id nowMs, st')

/-- Iterate `_get_request_id` over a list of observed timestamps,
returning the generated ids in order. -/
def genIds : ClientState → List Nat → List String × ClientState
  | st, [] => ([], st)
  | st, t :: ts =>
    let (r, st₁) := get_request_id st t
    let (rs, st₂) := genIds st₁ ts
    (r :: rs, st₂)

/-! ### Connect / disconnect / listen lifecycle -/

/-- Model of `connect` (lines 63-90): the retry loop. `outcome k` tells whether the
k-th `websockets.connect` + `authenticate` attempt succeeds (the
transport's behaviour, a parameter). Returns the final state, the backoff
delays slept (line 84: `min(5 * attempts, 60)`), and the messages sent.
A successful attempt sends the authentication message, marks the session
connected and resets the attempt counter, after which the `while` guard
is false and the loop exits. -/
def connectLoop (outcome : Nat → Bool) (k : Nat) (st : ClientState) :
    ClientState × List Nat × List SendAction :=
  if h : st.connected = false ∧ st.reconnect_attempts < st.max_reconnect_attempts then
    if outcome k then
      ({ st with connected := true, wsSome := true, reconnect_attempts := 0 },
        [], [.auth])
    else
      let a := st.reconnect_attempts + 1
      let w := min (5 * a) 60
      let r := connectLoop outcome (k + 1) { st with reconnect_attempts := a }
      (r.1, w :: r.2.1, r.2.2)
  else (st, [], [])
termination_by st.max_reconnect_attempts - st.reconnect_attempts
decreasing_by
  simp_wf
  omega

/-- Model of `connect` including the trailing hard-failure report (lines 89-90):
the final component is true exactly when the retry budget was exhausted
and the error was surfaced to the owner. -/
def connect (outcome : Nat → Bool) (st : ClientState) :
    ClientState × List Nat × List SendAction × Bool :=
  let r := connectLoop outcome 0 st
  (r.1, r.2.1, r.2.2, !r.1.connected)

/-- Model of `disconnect` (lines 92-106): flag down, close the socket (errors only
logged), fail every not-yet-done pending future with "Connection closed",
then clear the dict. The entries keep recording the futures' final states
(the callers still hold them). -/
def disconnect (st : ClientState) : ClientState :=
  { st with
    connected := false
    pending_requests := st.pending_requests.map fun e =>
      if e.live then
        { e with
          live := false
          slot := if e.slot.done then e.slot else .failed "Connection closed" }
      else e }

/-- Model of `listen` (lines 119-132): drain the inbound frames through
`handle_message`; when the stream ends (connection closed or transport
error), the `finally` block clears `connected` and, while the retry
budget is not exhausted, re-enters `connect`. -/
def listen (env : HandlerEnv) (frames : List Frame) (outcome : Nat → Bool)
    (st : ClientState) : ClientState × List Nat × List SendAction :=
  let st₁ :=
    match listenLoop env st frames with
    | .ok (s, _) => s
    | .error _ => st
  let st₂ := { st₁ with connected := false }
  if st₂.reconnect_attempts < st₂.max_reconnect_attempts then
    connectLoop outcome 0 st₂
  else (st₂, [], [])

/-! ### `send_with_response` and the subscription operations -/

/-- The transport's behaviour for one request/response exchange:
the socket write fails, the broker never answers, or a frame arrives
`t` time units after the request was registered. -/
inductive Wire
  | sendError
  | silent
  | reply (d : MsgData) (t : Nat)
  deriving DecidableEq, Repr

/-- Model of `send_with_response` (lines 287-310): register a fresh future under
`rid`, send, then `asyncio.wait_for(future, timeout)`. A send failure
marks the session disconnected (line 323) and pops the entry; a timeout
cancels the caller's future, pops the entry and raises; a frame that
arrives in time is processed by the concurrently running read loop
(`handle_message`), after which the caller observes its future — resolved
if the frame was correlated to `rid`, otherwise the wait continues and
times out. -/
def send_with_response (env : HandlerEnv) (st : ClientState) (msg : SendAction)
    (rid : String) (timeout : Nat) (w : Wire) :
    Except PyErr MsgData × ClientState × List SendAction :=
  if !is_connected st then (.error .notConnected, st, [])
  else
    let st₁ := { st with pending_requests := pendingInsert st.pending_requests rid }
    match w with
    | .sendError =>
      (.error .sendFailed,
        { st₁ with
          connected := false
          pending_requests := pendingPop st₁.pending_requests rid }, [msg])
    | .silent =>
      (.error (.timedOut rid timeout),
        { st₁ with
          pending_requests := pendingPop (pendingCancel st₁.pending_requests rid) rid },
        [msg])
    | .reply d t =>
      if t < timeout then
        match handle_message env st₁ (.ok d) with
        | .ok (st₂, _) =>
          match callerSlot st₂.pending_requests rid with
          | some (.result r) => (.ok r, st₂, [msg])
          | _ =>
            (.error (.timedOut rid timeout),
              { st₂ with
                pending_requests :=
                  pendingPop (pendingCancel st₂.pending_requests rid) rid }, [msg])
        | .error e =>
          (.error e,
            { st₁ with pending_requests := pendingPop st₁.pending_requests rid }, [msg])
      else
        (.error (.timedOut rid timeout),
          { st₁ with
            pending_requests := pendingPop (pendingCancel st₁.pending_requests rid) rid },
          [msg])

/-- Model of `self.subscriptions.add(symbol)`: Python set add. -/
def setAdd (l : List String) (x : String) : List String :=
  if x ∈ l then l else l ++ [x]

/-- Model of `self.subscriptions.discard(symbol)`: Python set discard. -/
def setDiscard (l : List String) (x : String) : List String :=
  l.filter (· ≠ x)

/-- The outcome dict a subscription operation returns. -/
inductive SubOutcome
  | alreadySubscribed (symbol : String)
  | subscribed (symbol : String) (data : MsgData)
  | notSubscribed (symbol : String)
  | unsubscribed (symbol : String) (data : MsgData)
  | errorOut (e : PyErr) (symbol : String)
  deriving DecidableEq, Repr

/-- Model of `subscribe` (lines 165-184): early return when already subscribed;
otherwise request/await, and add the symbol to the registry on any
successfully correlated response. `nowMs` is the clock reading used by
the id generator. -/
def subscribe (env : HandlerEnv) (st : ClientState) (symbol : String)
    (nowMs : Nat) (w : Wire) : SubOutcome × ClientState × List SendAction :=
  if symbol ∈ st.subscriptions then (.alreadySubscribed symbol, st, [])
  else
    let (rid, st₁) := get_request_id st nowMs
    match send_with_response env st₁ (.subscribeMsg rid symbol) rid 5 w with
    | (.ok data, st₂, ss) =>
      (.subscribed symbol data,
        { st₂ with subscriptions := setAdd st₂.subscriptions symbol }, ss)
    | (.error e, st₂, ss) => (.errorOut e symbol, st₂, ss)

/-- Model of `unsubscribe` (lines 186-205): early return when not subscribed;
otherwise request/await, and discard the symbol on success. -/
def unsubscribe (env : HandlerEnv) (st : ClientState) (symbol : String)
    (nowMs : Nat) (w : Wire) : SubOutcome × ClientState × List SendAction :=
  if symbol ∉ st.subscriptions then (.notSubscribed symbol, st, [])
  else
    let (rid, st₁) := get_request_id st nowMs
    match send_with_response env st₁ (.unsubscribeMsg rid symbol) rid 5 w with
    | (.ok data, st₂, ss) =>
      (.unsubscribed symbol data,
        { st₂ with subscriptions := setDiscard st₂.subscriptions symbol }, ss)
    | (.error e, st₂, ss) => (.errorOut e symbol, st₂, ss)

/-! ## Theorems -/

/-! ### C4: resolution is exclusive, idempotent, raise-free -/

/-- Once an entry's future is done, any further resolution attempt
succeeds without touching the result slot. -/
lemma stepEntry_done (e : PendingEntry) (op : ResolveOp) (hd : e.slot.done = true) :
    ∃ e', stepEntry e op = .ok e' ∧ e'.slot = e.slot := by
  cases op with
  | response d =>
    by_cases hl : e.live
    · exact ⟨{ e with live := false }, by simp [stepEntry, hl, hd], rfl⟩
    · exact ⟨e, by simp [stepEntry, hl], rfl⟩
  | disconnectSweep =>
    by_cases hl : e.live
    · exact ⟨{ e with live := false }, by simp [stepEntry, hl, hd], rfl⟩
    · exact ⟨e, by simp [stepEntry, hl], rfl⟩
  | timeoutPop =>
    exact ⟨{ e with live := false, slot := e.slot.cancel }, rfl,
      by simp [FutureState.cancel, hd]⟩

/-- Once resolved, a whole sequence of further attempts succeeds and
leaves the slot unchanged. -/
lemma runOps_done (ops : List ResolveOp) (e : PendingEntry) (hd : e.slot.done = true) :
    ∃ e', runOps e ops = .ok e' ∧ e'.slot = e.slot := by
  induction ops generalizing e with
  | nil => exact ⟨e, rfl, rfl⟩
  | cons op ops ih =>
    obtain ⟨e₁, h₁, hs₁⟩ := stepEntry_done e op hd
    obtain ⟨e₂, h₂, hs₂⟩ := ih e₁ (hs₁ ▸ hd)
    exact ⟨e₂, by simp only [runOps, h₁, bind, Except.bind, h₂], hs₂.trans hs₁⟩

/-- The first attempt on a live, unresolved entry succeeds and writes the
result slot, removing the entry from the dict. -/
lemma stepEntry_pending (e : PendingEntry) (op : ResolveOp) (hl : e.live = true)
    (hp : e.slot = .pending) :
    ∃ e₁, stepEntry e op = .ok e₁ ∧ e₁.slot.done = true ∧ e₁.live = false := by
  cases op with
  | response d =>
    refine ⟨{ e with live := false, slot := .result d }, ?_, rfl, rfl⟩
    simp only [stepEntry, hl, hp, if_true, FutureState.done, Bool.false_eq_true, if_false,
      FutureState.set_result, bind, Except.bind]
  | disconnectSweep =>
    refine ⟨{ e with live := false, slot := .failed "Connection closed" }, ?_, rfl, rfl⟩
    simp only [stepEntry, hl, hp, if_true, FutureState.done, Bool.false_eq_true, if_false,
      FutureState.set_exception, bind, Except.bind]
  | timeoutPop =>
    exact ⟨{ e with live := false, slot := .cancelled }, by simp [stepEntry, hp,
      FutureState.cancel, FutureState.done], by simp [hp, FutureState.cancel,
      FutureState.done], rfl⟩

/-- C4: for one correlation id, resolution by a correlated response
(`handle_message`), by the disconnect sweep, and by the caller's timeout
are mutually exclusive and idempotent: starting from a live, unresolved
PendingRequest, the first attempt writes the result slot exactly once,
and every later attempt — in any order, any number of times — is a no-op
on the slot and never raises (no InvalidStateError from a second
`set_result`/`set_exception`). -/
theorem pending_request_resolved_exactly_once (e : PendingEntry) (op : ResolveOp)
    (ops : List ResolveOp) (hl : e.live = true) (hp : e.slot = .pending) :
    ∃ e₁ e₂, stepEntry e op = .ok e₁ ∧ e₁.slot.done = true ∧
      runOps e₁ ops = .ok e₂ ∧ e₂.slot = e₁.slot := by
  obtain ⟨e₁, h₁, hd₁, _⟩ := stepEntry_pending e op hl hp
  obtain ⟨e₂, h₂, hs₂⟩ := runOps_done ops e₁ hd₁
  exact ⟨e₁, e₂, h₁, hd₁, h₂, hs₂⟩

/-- A sample message used by concrete scenarios. -/
def msg0 : MsgData := ⟨some "response", some "req_1_0", "ok", none⟩

/-- C4 at a concrete input: a live pending entry hit first by a response,
then by a disconnect sweep, a timeout and a duplicate response. -/
theorem pending_request_resolved_exactly_once_witness :
    (⟨"req_1_0", true, .pending⟩ : PendingEntry).live = true ∧
    (⟨"req_1_0", true, .pending⟩ : PendingEntry).slot = .pending ∧
    ∃ e₁ e₂, stepEntry ⟨"req_1_0", true, .pending⟩ (.response msg0) = .ok e₁ ∧
      e₁.slot.done = true ∧
      runOps e₁ [.disconnectSweep, .timeoutPop, .response msg0] = .ok e₂ ∧
      e₂.slot = e₁.slot :=
  ⟨rfl, rfl, pending_request_resolved_exactly_once ⟨"req_1_0", true, .pending⟩
    (.response msg0) [.disconnectSweep, .timeoutPop, .response msg0] rfl rfl⟩

/-! ### C7: the read loop survives bad frames and raising handlers -/

/-- Every branch of the dispatch tail leaves the client state untouched;
it can only raise (a handler failure) or return. -/
lemma dispatchTail_ok_state (env : HandlerEnv) (st : ClientState) (d : MsgData)
    (st' : ClientState) (l : List Log) (h : dispatchTail env st d = .ok (st', l)) :
    st' = st := by
  unfold dispatchTail at h
  split_ifs at h with h1 h2 h3 h4
  · cases hc : callHandler env.onMarketData d.payload <;> rw [hc] at h <;>
      simp only [bind, Except.bind] at h
    · exact Except.noConfusion h
    · simp only [Except.ok.injEq, Prod.mk.injEq] at h
      exact h.1.symm
  · cases hc : callHandler env.onOrderUpdate d.payload <;> rw [hc] at h <;>
      simp only [bind, Except.bind] at h
    · exact Except.noConfusion h
    · simp only [Except.ok.injEq, Prod.mk.injEq] at h
      exact h.1.symm
  · cases hc : callHandler env.onPositionUpdate d.payload <;> rw [hc] at h <;>
      simp only [bind, Except.bind] at h
    · exact Except.noConfusion h
    · simp only [Except.ok.injEq, Prod.mk.injEq] at h
      exact h.1.symm
  · simp only [Except.ok.injEq, Prod.mk.injEq] at h
    exact h.1.symm
  · simp only [Except.ok.injEq, Prod.mk.injEq] at h
    exact h.1.symm

/-- The `try` body of `handle_message` can touch only the pending-request
table: all other fields of the state survive unchanged. -/
lemma handleMessageTry_ok_state (env : HandlerEnv) (st : ClientState) (f : Frame)
    (st' : ClientState) (l : List Log) (h : handleMessageTry env st f = .ok (st', l)) :
    st'.connected = st.connected ∧ st'.subscriptions = st.subscriptions ∧
    st'.wsSome = st.wsSome ∧ st'.reconnect_attempts = st.reconnect_attempts ∧
    st'.max_reconnect_attempts = st.max_reconnect_attempts ∧
    st'.request_id = st.request_id := by
  cases f with
  | bad raw =>
    simp only [handleMessageTry, jsonLoads, bind, Except.bind] at h
    exact Except.noConfusion h
  | ok d =>
    simp only [handleMessageTry, jsonLoads, bind, Except.bind] at h
    split_ifs at h with h1
    · simp only [Except.ok.injEq, Prod.mk.injEq] at h
      rw [← h.1]
      exact ⟨rfl, rfl, rfl, rfl, rfl, rfl⟩
    · rw [dispatchTail_ok_state env st d st' l h]
      exact ⟨rfl, rfl, rfl, rfl, rfl, rfl⟩

/-- Running `handle_message` never propagates an exception, and preserves every
state field except the pending-request table. -/
lemma handle_message_ok (env : HandlerEnv) (st : ClientState) (f : Frame) :
    ∃ st' l, handle_message env st f = .ok (st', l) ∧
      st'.connected = st.connected ∧ st'.subscriptions = st.subscriptions ∧
      st'.wsSome = st.wsSome ∧ st'.reconnect_attempts = st.reconnect_attempts ∧
      st'.max_reconnect_attempts = st.max_reconnect_attempts ∧
      st'.request_id = st.request_id := by
  unfold handle_message
  cases ht : handleMessageTry env st f with
  | ok r =>
    exact ⟨r.1, r.2, rfl, handleMessageTry_ok_state env st f r.1 r.2 ht⟩
  | error e =>
    cases e <;>
      exact ⟨st, _, rfl, rfl, rfl, rfl, rfl, rfl, rfl⟩

/-- The read loop consumes every frame and keeps the session state intact
apart from the pending-request table. -/
lemma listenLoop_ok (env : HandlerEnv) (st : ClientState) (frames : List Frame) :
    ∃ st' l, listenLoop env st frames = .ok (st', l) ∧
      st'.connected = st.connected ∧ st'.subscriptions = st.subscriptions := by
  induction frames generalizing st with
  | nil => exact ⟨st, [], rfl, rfl, rfl⟩
  | cons f fs ih =>
    obtain ⟨st₁, l₁, h₁, hc₁, hs₁, -⟩ := handle_message_ok env st f
    obtain ⟨st₂, l₂, h₂, hc₂, hs₂⟩ := ih st₁
    exact ⟨st₂, l₁ ++ l₂,
      by simp only [listenLoop, h₁, bind, Except.bind, h₂],
      hc₂.trans hc₁, hs₂.trans hs₁⟩

/-- C7: neither an inbound frame that fails to decode nor a registered
event handler that raises crashes the read loop. `handle_message` always
returns normally (never propagates into `listen`), a decode failure is
logged and the frame dropped with the state untouched, a handler failure
is logged without re-raising, and the read loop processes any list of
frames to completion with the connection flag not torn down. -/
theorem read_loop_survives_errors (env : HandlerEnv) (st : ClientState)
    (frames : List Frame) :
    (∀ f, ∃ st' l, handle_message env st f = .ok (st', l) ∧
      st'.connected = st.connected) ∧
    (∀ raw, handle_message env st (.bad raw) = .ok (st, [.decodeFailed])) ∧
    (∀ f e, handleMessageTry env st f = .error e → e ≠ .jsonDecode →
      handle_message env st f = .ok (st, [.handleError])) ∧
    (∃ st' l, listenLoop env st frames = .ok (st', l) ∧
      st'.connected = st.connected) := by
  refine ⟨fun f => ?_, fun raw => rfl, fun f e h hne => ?_, ?_⟩
  · obtain ⟨st', l, h, hc, -⟩ := handle_message_ok env st f
    exact ⟨st', l, h, hc⟩
  · unfold handle_message
    rw [h]
    cases e with
    | jsonDecode => exact absurd rfl hne
    | _ => rfl
  · obtain ⟨st', l, h, hc, -⟩ := listenLoop_ok env st frames
    exact ⟨st', l, h, hc⟩

/-! ### C5: reconnect retry policy -/

/-- Full behaviour of the retry loop, by induction on the remaining
budget `m = max_reconnect_attempts - reconnect_attempts`: each backoff
delay is `min (5 * attempts, 60)` for linearly increasing attempt
numbers, at most `m` further attempts are made, exhausting the budget
ends with the attempt counter at the maximum, and a successful attempt
ends with the counter reset to zero. -/
lemma connectLoop_spec (m : Nat) :
    ∀ (outcome : Nat → Bool) (k : Nat) (st : ClientState),
    st.max_reconnect_attempts - st.reconnect_attempts = m →
    st.connected = false →
    st.reconnect_attempts ≤ st.max_reconnect_attempts →
    (∀ i, ∀ hi : i < (connectLoop outcome k st).2.1.length,
      (connectLoop outcome k st).2.1.get ⟨i, hi⟩ =
        min (5 * (st.reconnect_attempts + i + 1)) 60) ∧
    (connectLoop outcome k st).2.1.length ≤ m ∧
    ((connectLoop outcome k st).1.connected = false →
      (connectLoop outcome k st).1.reconnect_attempts = st.max_reconnect_attempts) ∧
    ((connectLoop outcome k st).1.connected = true →
      (connectLoop outcome k st).1.reconnect_attempts = 0) ∧
    (connectLoop outcome k st).1.max_reconnect_attempts = st.max_reconnect_attempts := by
  induction m with
  | zero =>
    intro outcome k st hm hc hle
    have ha : st.reconnect_attempts = st.max_reconnect_attempts := by omega
    have hguard : ¬(st.connected = false ∧
        st.reconnect_attempts < st.max_reconnect_attempts) := by
      rintro ⟨-, hlt⟩
      omega
    rw [connectLoop, dif_neg hguard]
    refine ⟨fun i hi => absurd hi (by simp), by simp, fun _ => ha.symm ▸ rfl,
      fun habs => absurd (hc ▸ habs) (by simp), rfl⟩
  | succ m ih =>
    intro outcome k st hm hc hle
    have hlt : st.reconnect_attempts < st.max_reconnect_attempts := by omega
    rw [connectLoop, dif_pos ⟨hc, hlt⟩]
    by_cases ho : outcome k
    · rw [if_pos ho]
      exact ⟨fun i hi => absurd hi (by simp), by simp, fun habs => by simp at habs,
        fun _ => rfl, rfl⟩
    · rw [if_neg ho]
      set st' : ClientState := { st with reconnect_attempts := st.reconnect_attempts + 1 }
        with hst'
      obtain ⟨hdel, hlen, hfail, hsucc, hmax⟩ :=
        ih outcome (k + 1) st' (by simp [hst']; omega) (by simp [hst', hc])
          (by simp [hst']; omega)
      refine ⟨?_, by simpa using Nat.succ_le_succ hlen, ?_, hsucc, hmax⟩
      · intro i hi
        cases i with
        | zero => simp
        | succ j =>
          have hj : j < (connectLoop outcome (k + 1) st').2.1.length := by
            simpa using Nat.lt_of_succ_lt_succ hi
          have := hdel j hj
          simp only [List.get_cons_succ]
          rw [this]
          simp [hst']
          ring_nf
      · intro hfin
        rw [hfail hfin]

/-- C5: while not explicitly shut down, the client retries the connection
with a linearly increasing backoff delay `min (5 * attempt, 60)` bounded
by the 60-second cap, for at most the configured maximum number of
attempts. Exhausting the budget leaves the session unconnected with the
attempt counter at the maximum and the hard failure surfaced (the final
component of `connect`), with no further retries; a successful attempt
resets the attempt counter to zero. -/
theorem reconnect_policy (outcome : Nat → Bool) (st : ClientState)
    (hc : st.connected = false)
    (hle : st.reconnect_attempts ≤ st.max_reconnect_attempts) :
    (∀ i, ∀ hi : i < (connect outcome st).2.1.length,
      (connect outcome st).2.1.get ⟨i, hi⟩ =
        min (5 * (st.reconnect_attempts + i + 1)) 60 ∧
      (connect outcome st).2.1.get ⟨i, hi⟩ ≤ 60) ∧
    (connect outcome st).2.1.length ≤
      st.max_reconnect_attempts - st.reconnect_attempts ∧
    ((connect outcome st).1.connected = false →
      (connect outcome st).1.reconnect_attempts = st.max_reconnect_attempts ∧
      (connect outcome st).2.2.2 = true) ∧
    ((connect outcome st).1.connected = true →
      (connect outcome st).1.reconnect_attempts = 0 ∧
      (connect outcome st).2.2.2 = false) := by
  obtain ⟨hdel, hlen, hfail, hsucc, -⟩ :=
    connectLoop_spec (st.max_reconnect_attempts - st.reconnect_attempts)
      outcome 0 st rfl hc hle
  refine ⟨fun i hi => ⟨hdel i hi, ?_⟩, hlen, fun hfin => ⟨hfail hfin, ?_⟩,
    fun hfin => ⟨hsucc hfin, ?_⟩⟩
  · exact le_of_eq_of_le (hdel i hi) (min_le_right _ _)
  · have h2 : (connectLoop outcome 0 st).1.connected = false := hfin
    simp only [connect, h2]
    rfl
  · have h2 : (connectLoop outcome 0 st).1.connected = true := hfin
    simp only [connect, h2]
    rfl

/-- A disconnected client with a fresh retry budget, used by concrete
scenarios. -/
def stDown : ClientState := ⟨false, false, [], 0, 10, [], 0⟩

/-- C5 at a concrete input: a transport that always refuses the
connection, starting from a disconnected client with an empty attempt
counter. -/
theorem reconnect_policy_witness :
    stDown.connected = false ∧
    stDown.reconnect_attempts ≤ stDown.max_reconnect_attempts ∧
    ((∀ i, ∀ hi : i < (connect (fun _ => false) stDown).2.1.length,
      (connect (fun _ => false) stDown).2.1.get ⟨i, hi⟩ =
        min (5 * (stDown.reconnect_attempts + i + 1)) 60 ∧
      (connect (fun _ => false) stDown).2.1.get ⟨i, hi⟩ ≤ 60) ∧
    (connect (fun _ => false) stDown).2.1.length ≤
      stDown.max_reconnect_attempts - stDown.reconnect_attempts ∧
    ((connect (fun _ => false) stDown).1.connected = false →
      (connect (fun _ => false) stDown).1.reconnect_attempts =
        stDown.max_reconnect_attempts ∧
      (connect (fun _ => false) stDown).2.2.2 = true) ∧
    ((connect (fun _ => false) stDown).1.connected = true →
      (connect (fun _ => false) stDown).1.reconnect_attempts = 0 ∧
      (connect (fun _ => false) stDown).2.2.2 = false)) :=
  ⟨rfl, by decide, reconnect_policy (fun _ => false) stDown rfl (by decide)⟩

/-! ### C1 / C2: what happens to pending requests and subscriptions when
the session leaves `Ready` -/

/-- The retry loop never touches the pending-request table, the
subscription registry or the id counter, and authentication frames are
the only thing it sends. -/
lemma connectLoop_preserves (m : Nat) :
    ∀ (outcome : Nat → Bool) (k : Nat) (st : ClientState),
    st.max_reconnect_attempts - st.reconnect_attempts = m →
    (connectLoop outcome k st).1.pending_requests = st.pending_requests ∧
    (connectLoop outcome k st).1.subscriptions = st.subscriptions ∧
    (connectLoop outcome k st).1.request_id = st.request_id ∧
    ∀ s ∈ (connectLoop outcome k st).2.2, s = SendAction.auth := by
  induction m with
  | zero =>
    intro outcome k st hm
    have hguard : ¬(st.connected = false ∧
        st.reconnect_attempts < st.max_reconnect_attempts) := by
      rintro ⟨-, hlt⟩
      omega
    rw [connectLoop, dif_neg hguard]
    exact ⟨rfl, rfl, rfl, by simp⟩
  | succ m ih =>
    intro outcome k st hm
    by_cases hguard : st.connected = false ∧
        st.reconnect_attempts < st.max_reconnect_attempts
    · rw [connectLoop, dif_pos hguard]
      by_cases ho : outcome k
      · rw [if_pos ho]
        exact ⟨rfl, rfl, rfl, by simp⟩
      · rw [if_neg ho]
        obtain ⟨hp, hs, hr, ha⟩ := ih outcome (k + 1)
          { st with reconnect_attempts := st.reconnect_attempts + 1 }
          (by simp; omega)
        exact ⟨hp, hs, hr, ha⟩
    · rw [connectLoop, dif_neg hguard]
      exact ⟨rfl, rfl, rfl, by simp⟩

/-- C1 (amended): on explicit shutdown, `disconnect` resolves every live
PendingRequest with the "Connection closed" failure and empties the
table; but on connection loss detected in the read loop, the transition
out of `Ready` (the `finally` block of `listen` and the reconnect it
triggers) leaves the pending-request table exactly as it was — unresolved
entries stay pending and are only cleaned up by their callers' own
timeouts. -/
theorem out_of_ready_pending_requests (st : ClientState) (env : HandlerEnv)
    (outcome : Nat → Bool) :
    (disconnect st).connected = false ∧
    (∀ e' ∈ (disconnect st).pending_requests, e'.live = false) ∧
    (∀ e ∈ st.pending_requests, e.live = true → e.slot = .pending →
      (⟨e.rid, false, .failed "Connection closed"⟩ : PendingEntry) ∈
        (disconnect st).pending_requests) ∧
    (listen env [] outcome st).1.pending_requests = st.pending_requests := by
  refine ⟨rfl, ?_, ?_, ?_⟩
  · intro e' he'
    obtain ⟨e, -, rfl⟩ := List.mem_map.mp he'
    by_cases hl : e.live <;> simp [hl]
  · intro e he hl hp
    refine List.mem_map.mpr ⟨e, he, ?_⟩
    simp [hl, hp, FutureState.done]
  · show (if h : _ then _ else _ : ClientState × List Nat × List SendAction).1.pending_requests
        = st.pending_requests
    split_ifs with h
    · exact (connectLoop_preserves _ outcome 0 _ rfl).1
    · rfl

/-- C1 witness for the amended statement: a ready client with one live
pending request, shut down explicitly and, separately, dropped by the
read loop. -/
def stPend : ClientState := ⟨true, true, [], 0, 10, [⟨"req_1_0", true, .pending⟩], 1⟩

/-- The no-callback environment used by concrete scenarios. -/
def env0 : HandlerEnv := ⟨none, none, none⟩

theorem out_of_ready_pending_requests_witness :
    (disconnect stPend).connected = false ∧
    (∀ e' ∈ (disconnect stPend).pending_requests, e'.live = false) ∧
    (∀ e ∈ stPend.pending_requests, e.live = true → e.slot = .pending →
      (⟨e.rid, false, .failed "Connection closed"⟩ : PendingEntry) ∈
        (disconnect stPend).pending_requests) ∧
    (listen env0 [] (fun _ => true) stPend).1.pending_requests =
      stPend.pending_requests :=
  out_of_ready_pending_requests stPend env0 (fun _ => true)

/-- C1 counterexample: the claim as stated is false on the loss path.
A ready session with one live pending request loses its connection (the
read loop ends and its `finally` block runs, reconnecting successfully):
the transition out of `Ready` completes with the PendingRequest still
live and unresolved in the correlation table. -/
theorem connection_loss_leaves_pending_cex :
    stPend.connected = true ∧
    (listen env0 [] (fun _ => true) stPend).1.pending_requests =
      [⟨"req_1_0", true, .pending⟩] ∧
    pendingLookup (listen env0 [] (fun _ => true) stPend).1.pending_requests
      "req_1_0" = some .pending := by
  have h : listen env0 [] (fun _ => true) stPend =
      connectLoop (fun _ => true) 0
        ⟨false, true, [], 0, 10, [⟨"req_1_0", true, .pending⟩], 1⟩ := rfl
  have h2 : connectLoop (fun _ => true) 0
        ⟨false, true, [], 0, 10, [⟨"req_1_0", true, .pending⟩], 1⟩ =
      (⟨true, true, [], 0, 10, [⟨"req_1_0", true, .pending⟩], 1⟩, [], [.auth]) := by
    rw [connectLoop]
    rfl
  rw [h, h2]
  exact ⟨rfl, rfl, rfl⟩

/-- A ready client already subscribed to "MES" with nothing in flight. -/
def stSub : ClientState := ⟨true, true, ["MES"], 0, 10, [], 0⟩

/-- C2: the source has no resubscribe-after-reconnect path. A ready
client subscribed to "MES" loses its connection; the reconnect succeeds
and the session returns to ready, but the only frame sent during the
whole reconnect is the authentication message — no subscribe request is
re-submitted for "MES", although the registry still holds it. -/
theorem no_resubscribe_after_reconnect :
    (listen env0 [] (fun _ => true) stSub).1.connected = true ∧
    (listen env0 [] (fun _ => true) stSub).1.subscriptions = ["MES"] ∧
    (listen env0 [] (fun _ => true) stSub).2.2 = [SendAction.auth] ∧
    ∀ s ∈ (listen env0 [] (fun _ => true) stSub).2.2,
      ∀ rid sym, s ≠ SendAction.subscribeMsg rid sym := by
  have h : listen env0 [] (fun _ => true) stSub =
      connectLoop (fun _ => true) 0 ⟨false, true, ["MES"], 0, 10, [], 0⟩ := rfl
  have h2 : connectLoop (fun _ => true) 0 ⟨false, true, ["MES"], 0, 10, [], 0⟩ =
      (⟨true, true, ["MES"], 0, 10, [], 0⟩, [], [.auth]) := by
    rw [connectLoop]
    rfl
  rw [h, h2]
  refine ⟨rfl, rfl, rfl, ?_⟩
  intro s hs rid sym
  simp only [List.mem_singleton] at hs
  subst hs
  exact fun hne => SendAction.noConfusion hne

/-! ### Correlation-table lemmas for a fresh id -/

/-- A map that only alters entries carrying id `rid` is the identity on a
table that does not contain `rid`. -/
lemma map_id_of_fresh (l : List PendingEntry) (rid : String)
    (f : PendingEntry → PendingEntry)
    (hff : ∀ e, e.rid ≠ rid → f e = e) (hf : ∀ e ∈ l, e.rid ≠ rid) :
    l.map f = l := by
  induction l with
  | nil => rfl
  | cons e es ih =>
    rw [List.map_cons, hff e (hf e (by simp)), ih fun e' he' => hf e' (by simp [he'])]

/-- Registering a fresh id appends a live pending entry. -/
lemma pendingInsert_fresh (l : List PendingEntry) (rid : String)
    (hf : ∀ e ∈ l, e.rid ≠ rid) :
    pendingInsert l rid = l ++ [⟨rid, true, .pending⟩] := by
  unfold pendingInsert
  rw [map_id_of_fresh l rid _ (fun e he => by simp [he]) hf]

/-- A table without `rid` answers `none` for `rid`. -/
lemma pendingLookup_fresh_none (l : List PendingEntry) (rid : String)
    (hf : ∀ e ∈ l, e.rid ≠ rid) :
    pendingLookup l rid = none := by
  induction l with
  | nil => rfl
  | cons e es ih =>
    have he : e.rid ≠ rid := hf e (by simp)
    simp only [pendingLookup]
    rw [if_neg (by simp [he])]
    exact ih fun e' he' => hf e' (by simp [he'])

/-- Looking up `rid` in `l ++ [x]` when `l` does not contain `rid`. -/
lemma pendingLookup_append (l : List PendingEntry) (x : PendingEntry) (rid : String)
    (hf : ∀ e ∈ l, e.rid ≠ rid) :
    pendingLookup (l ++ [x]) rid =
      if x.live && x.rid == rid then some x.slot else none := by
  induction l with
  | nil => rfl
  | cons e es ih =>
    have he : e.rid ≠ rid := hf e (by simp)
    simp only [List.cons_append, pendingLookup]
    rw [if_neg (by simp [he])]
    exact ih fun e' he' => hf e' (by simp [he'])

/-- The caller's future for `rid` after appending its entry. -/
lemma callerSlot_append (l : List PendingEntry) (x : PendingEntry) (rid : String)
    (hx : x.rid = rid) :
    callerSlot (l ++ [x]) rid = some x.slot := by
  unfold callerSlot
  rw [List.reverse_append]
  simp [List.find?, hx]

/-- A correlated inbound frame for a freshly registered id resolves that
entry with the frame's payload and removes it from the dict. -/
lemma handle_message_resolves (env : HandlerEnv) (st : ClientState)
    (l : List PendingEntry) (rid : String) (d : MsgData)
    (hp : st.pending_requests = l ++ [⟨rid, true, .pending⟩])
    (hf : ∀ e ∈ l, e.rid ≠ rid) (hrid : rid ≠ "") (hd : d.requestId? = some rid) :
    handle_message env st (.ok d) =
      .ok ({ st with pending_requests := l ++ [⟨rid, false, .result d⟩] }, []) := by
  have hlook : pendingLookup st.pending_requests rid = some .pending := by
    rw [hp, pendingLookup_append l _ rid hf]
    simp
  have hcond : (ridTruthy d.requestId?
      && (pendingLookup st.pending_requests (d.requestId?.getD "")).isSome) = true := by
    rw [hd]
    simp [ridTruthy, hrid, hlook]
  have hres : resolveEntry st.pending_requests rid d = l ++ [⟨rid, false, .result d⟩] := by
    rw [hp]
    unfold resolveEntry
    rw [List.map_append,
      map_id_of_fresh l rid _ (fun e he => by simp [he]) hf]
    simp [FutureState.done]
  unfold handle_message handleMessageTry
  simp only [jsonLoads, bind, Except.bind]
  rw [if_pos hcond, hd]
  dsimp only
  rw [Option.getD_some, hres]

/-- A frame whose correlation id is absent from the dict resolves
nothing: the state survives `handle_message` untouched. -/
lemma handle_message_stale (env : HandlerEnv) (st : ClientState) (d : MsgData)
    (st'' : ClientState) (lg : List Log)
    (h : handle_message env st (.ok d) = .ok (st'', lg))
    (hl : pendingLookup st.pending_requests (d.requestId?.getD "") = none) :
    st'' = st := by
  have hcond : ¬((ridTruthy d.requestId?
      && (pendingLookup st.pending_requests (d.requestId?.getD "")).isSome) = true) := by
    simp [hl]
  unfold handle_message handleMessageTry at h
  simp only [jsonLoads, bind, Except.bind] at h
  rw [if_neg hcond] at h
  cases hdt : dispatchTail env st d with
  | ok r =>
    rw [hdt] at h
    cases r with
    | mk s lgs =>
      simp only [Except.ok.injEq, Prod.mk.injEq] at h
      rw [← h.1]
      exact dispatchTail_ok_state env st d s lgs hdt
  | error e =>
    rw [hdt] at h
    cases e <;> simp only [Except.ok.injEq, Prod.mk.injEq] at h <;> exact h.1.symm

/-! ### `send_with_response` equations -/

/-- A connected client whose transport answers the request with a
correlated frame inside the deadline: the caller gets the frame back and
the entry leaves the dict resolved. -/
lemma swr_correlated (env : HandlerEnv) (st : ClientState) (msg : SendAction)
    (rid : String) (timeout : Nat) (d : MsgData) (t : Nat)
    (hc : is_connected st = true)
    (hf : ∀ e ∈ st.pending_requests, e.rid ≠ rid)
    (hrid : rid ≠ "") (hd : d.requestId? = some rid) (ht : t < timeout) :
    send_with_response env st msg rid timeout (.reply d t) =
      (.ok d,
        { st with pending_requests :=
            st.pending_requests ++ [⟨rid, false, .result d⟩] },
        [msg]) := by
  unfold send_with_response
  rw [hc]
  simp only [Bool.not_true, Bool.false_eq_true, if_false]
  rw [if_pos ht, pendingInsert_fresh st.pending_requests rid hf]
  rw [handle_message_resolves env _ st.pending_requests rid d rfl hf hrid hd]
  dsimp only
  rw [callerSlot_append st.pending_requests _ rid rfl]

/-- A connected client whose transport never answers: the caller gets a
timeout failure, the future is cancelled and the entry leaves the dict. -/
lemma swr_silent (env : HandlerEnv) (st : ClientState) (msg : SendAction)
    (rid : String) (timeout : Nat)
    (hc : is_connected st = true)
    (hf : ∀ e ∈ st.pending_requests, e.rid ≠ rid) :
    send_with_response env st msg rid timeout .silent =
      (.error (.timedOut rid timeout),
        { st with pending_requests :=
            st.pending_requests ++ [⟨rid, false, .cancelled⟩] },
        [msg]) := by
  unfold send_with_response
  rw [hc]
  simp only [Bool.not_true, Bool.false_eq_true, if_false]
  rw [pendingInsert_fresh st.pending_requests rid hf]
  have hcan : pendingCancel (st.pending_requests ++ [⟨rid, true, .pending⟩]) rid =
      st.pending_requests ++ [⟨rid, true, .cancelled⟩] := by
    unfold pendingCancel
    rw [List.map_append, map_id_of_fresh st.pending_requests rid _
      (fun e he => by simp [he]) hf]
    simp [FutureState.cancel, FutureState.done]
  have hpop : pendingPop (st.pending_requests ++ [⟨rid, true, .cancelled⟩]) rid =
      st.pending_requests ++ [⟨rid, false, .cancelled⟩] := by
    unfold pendingPop
    rw [List.map_append, map_id_of_fresh st.pending_requests rid _
      (fun e he => by simp [he]) hf]
    simp
  rw [hcan, hpop]

/-- A connected client whose socket write fails: the send failure
propagates, the session is flagged disconnected, and the entry leaves the
dict. -/
lemma swr_sendError (env : HandlerEnv) (st : ClientState) (msg : SendAction)
    (rid : String) (timeout : Nat)
    (hc : is_connected st = true)
    (hf : ∀ e ∈ st.pending_requests, e.rid ≠ rid) :
    send_with_response env st msg rid timeout .sendError =
      (.error .sendFailed,
        { st with
          connected := false
          pending_requests := st.pending_requests ++ [⟨rid, false, .pending⟩] },
        [msg]) := by
  unfold send_with_response
  rw [hc]
  simp only [Bool.not_true, Bool.false_eq_true, if_false]
  rw [pendingInsert_fresh st.pending_requests rid hf]
  have hpop : pendingPop (st.pending_requests ++ [⟨rid, true, .pending⟩]) rid =
      st.pending_requests ++ [⟨rid, false, .pending⟩] := by
    unfold pendingPop
    rw [List.map_append, map_id_of_fresh st.pending_requests rid _
      (fun e he => by simp [he]) hf]
    simp
  rw [hpop]

/-! ### C3: `send_with_response` cannot hang and cleans up on timeout -/

/-- Field preservation extracted from a successful `handle_message` run. -/
lemma handle_message_ok_state (env : HandlerEnv) (st : ClientState) (f : Frame)
    (st' : ClientState) (lg : List Log)
    (h : handle_message env st f = .ok (st', lg)) :
    st'.connected = st.connected ∧ st'.subscriptions = st.subscriptions ∧
    st'.wsSome = st.wsSome ∧ st'.reconnect_attempts = st.reconnect_attempts ∧
    st'.max_reconnect_attempts = st.max_reconnect_attempts ∧
    st'.request_id = st.request_id := by
  unfold handle_message at h
  cases ht : handleMessageTry env st f with
  | ok r =>
    rw [ht] at h
    dsimp only at h
    cases r with
    | mk s lgs =>
      simp only [Except.ok.injEq, Prod.mk.injEq] at h
      rw [← h.1]
      exact handleMessageTry_ok_state env st f s lgs ht
  | error e =>
    rw [ht] at h
    cases e <;> simp only [Except.ok.injEq, Prod.mk.injEq] at h <;> rw [← h.1] <;>
      exact ⟨rfl, rfl, rfl, rfl, rfl, rfl⟩

/-- Running `send_with_response` never touches the subscription registry, the id
counter or the retry budget, whatever the transport does. -/
lemma swr_preserves (env : HandlerEnv) (st : ClientState) (msg : SendAction)
    (rid : String) (timeout : Nat) (w : Wire) :
    (send_with_response env st msg rid timeout w).2.1.subscriptions = st.subscriptions ∧
    (send_with_response env st msg rid timeout w).2.1.request_id = st.request_id := by
  unfold send_with_response
  cases hic : is_connected st with
  | false =>
    simp only [Bool.not_false]
    rw [if_pos trivial]
    exact ⟨rfl, rfl⟩
  | true =>
    simp only [Bool.not_true, Bool.false_eq_true, if_false]
    cases w with
    | sendError => exact ⟨rfl, rfl⟩
    | silent => exact ⟨rfl, rfl⟩
    | reply d t =>
      dsimp only
      by_cases ht : t < timeout
      · rw [if_pos ht]
        obtain ⟨s', l', heq, -, hsubs, -, -, -, hrq⟩ :=
          handle_message_ok env
            { st with pending_requests := pendingInsert st.pending_requests rid } (.ok d)
        rw [heq]
        dsimp only
        cases hcs : callerSlot s'.pending_requests rid with
        | none => exact ⟨hsubs, hrq⟩
        | some fs => cases fs <;> exact ⟨hsubs, hrq⟩
      · rw [if_neg ht]
        exact ⟨rfl, rfl⟩

/-- C3: a registered request never hangs — with a silent transport the
await returns a timeout failure and the correlation id is removed from
the pending table, after which a late correlated response resolves
nothing; a correlated response inside the deadline returns that payload
(and also clears the entry); a send failure returns a failure with the
entry likewise removed. -/
theorem await_never_hangs (env : HandlerEnv) (st : ClientState) (msg : SendAction)
    (rid : String) (timeout : Nat)
    (hc : is_connected st = true)
    (hf : ∀ e ∈ st.pending_requests, e.rid ≠ rid)
    (hrid : rid ≠ "") :
    ((send_with_response env st msg rid timeout .silent).1 =
        .error (.timedOut rid timeout) ∧
      pendingLookup
        (send_with_response env st msg rid timeout .silent).2.1.pending_requests
        rid = none) ∧
    (∀ d st'' lg, d.requestId? = some rid →
      handle_message env (send_with_response env st msg rid timeout .silent).2.1
          (.ok d) = .ok (st'', lg) →
      st'' = (send_with_response env st msg rid timeout .silent).2.1) ∧
    (∀ d t, d.requestId? = some rid → t < timeout →
      (send_with_response env st msg rid timeout (.reply d t)).1 = .ok d ∧
      pendingLookup
        (send_with_response env st msg rid timeout (.reply d t)).2.1.pending_requests
        rid = none) ∧
    ((send_with_response env st msg rid timeout .sendError).1 = .error .sendFailed ∧
      pendingLookup
        (send_with_response env st msg rid timeout .sendError).2.1.pending_requests
        rid = none) := by
  have hsil := swr_silent env st msg rid timeout hc hf
  have hsend := swr_sendError env st msg rid timeout hc hf
  have hlater : pendingLookup
      (st.pending_requests ++ [⟨rid, false, .cancelled⟩]) rid = none := by
    rw [pendingLookup_append st.pending_requests _ rid hf]
    simp
  refine ⟨⟨by rw [hsil], ?_⟩, ?_, ?_, by rw [hsend], ?_⟩
  · rw [hsil]
    exact hlater
  · intro d st'' lg hd hh
    refine handle_message_stale env _ d st'' lg hh ?_
    rw [hd]
    dsimp only [Option.getD_some]
    rw [hsil]
    exact hlater
  · intro d t hd ht
    rw [swr_correlated env st msg rid timeout d t hc hf hrid hd ht]
    refine ⟨rfl, ?_⟩
    dsimp only
    rw [pendingLookup_append st.pending_requests _ rid hf]
    simp
  · rw [hsend]
    dsimp only
    rw [pendingLookup_append st.pending_requests _ rid hf]
    simp

/-- A plain ready client with empty registry and table. -/
def stReady : ClientState := ⟨true, true, [], 0, 10, [], 0⟩

/-- C3 at a concrete input: a ready client sends an order request with
correlation id "r1" over each of the three transport behaviours. -/
theorem await_never_hangs_witness :
    is_connected stReady = true ∧
    (∀ e ∈ stReady.pending_requests, e.rid ≠ "r1") ∧
    "r1" ≠ "" ∧
    (((send_with_response env0 stReady (.orderMsg "r1") "r1" 10 .silent).1 =
        .error (.timedOut "r1" 10) ∧
      pendingLookup
        (send_with_response env0 stReady (.orderMsg "r1") "r1" 10 .silent).2.1.pending_requests
        "r1" = none) ∧
    (∀ d st'' lg, d.requestId? = some "r1" →
      handle_message env0
          (send_with_response env0 stReady (.orderMsg "r1") "r1" 10 .silent).2.1
          (.ok d) = .ok (st'', lg) →
      st'' = (send_with_response env0 stReady (.orderMsg "r1") "r1" 10 .silent).2.1) ∧
    (∀ d t, d.requestId? = some "r1" → t < 10 →
      (send_with_response env0 stReady (.orderMsg "r1") "r1" 10 (.reply d t)).1 = .ok d ∧
      pendingLookup
        (send_with_response env0 stReady (.orderMsg "r1") "r1" 10
          (.reply d t)).2.1.pending_requests "r1" = none) ∧
    ((send_with_response env0 stReady (.orderMsg "r1") "r1" 10 .sendError).1 =
        .error .sendFailed ∧
      pendingLookup
        (send_with_response env0 stReady (.orderMsg "r1") "r1" 10
          .sendError).2.1.pending_requests "r1" = none)) :=
  ⟨rfl, by simp [stReady], by decide,
    await_never_hangs env0 stReady (.orderMsg "r1") "r1" 10 rfl
      (by simp [stReady]) (by decide)⟩

/-! ### C6: when the subscription registry is updated -/

/-- C6 (amended): the registry is unchanged whenever the request/await
raises (timeout or send failure), and on a successfully correlated
response exactly the one requested symbol is added (subscribe) or removed
(unsubscribe). However, any correlated response counts as success — the
response's content, including a broker error payload, is never
inspected (see the counterexample). -/
theorem registry_updated_on_ack (env : HandlerEnv) (st : ClientState) (sym : String)
    (nowMs : Nat) (w : Wire) :
    (∀ e, (subscribe env st sym nowMs w).1 = .errorOut e sym →
      (subscribe env st sym nowMs w).2.1.subscriptions = st.subscriptions) ∧
    (∀ dta, (subscribe env st sym nowMs w).1 = .subscribed sym dta →
      (subscribe env st sym nowMs w).2.1.subscriptions =
        setAdd st.subscriptions sym) ∧
    (∀ e, (unsubscribe env st sym nowMs w).1 = .errorOut e sym →
      (unsubscribe env st sym nowMs w).2.1.subscriptions = st.subscriptions) ∧
    (∀ dta, (unsubscribe env st sym nowMs w).1 = .unsubscribed sym dta →
      (unsubscribe env st sym nowMs w).2.1.subscriptions =
        setDiscard st.subscriptions sym) := by
  obtain ⟨hsubs, -⟩ := swr_preserves env { st with request_id := st.request_id + 1 }
    (.subscribeMsg (mkRequestId (st.request_id + 1) nowMs) sym)
    (mkRequestId (st.request_id + 1) nowMs) 5 w
  obtain ⟨hsubs', -⟩ := swr_preserves env { st with request_id := st.request_id + 1 }
    (.unsubscribeMsg (mkRequestId (st.request_id + 1) nowMs) sym)
    (mkRequestId (st.request_id + 1) nowMs) 5 w
  constructor
  · unfold subscribe
    by_cases hmem : sym ∈ st.subscriptions
    · rw [if_pos hmem]
      intro e h
      exact SubOutcome.noConfusion h
    · rw [if_neg hmem]
      dsimp only [get_request_id]
      rcases hswr : send_with_response env { st with request_id := st.request_id + 1 }
          (.subscribeMsg (mkRequestId (st.request_id + 1) nowMs) sym)
          (mkRequestId (st.request_id + 1) nowMs) 5 w with ⟨res, st₂, ss⟩
      rw [hswr] at hsubs
      cases res with
      | ok dta' => intro e h; exact SubOutcome.noConfusion h
      | error e' => intro e h; exact hsubs
  refine ⟨?_, ?_, ?_⟩
  · unfold subscribe
    by_cases hmem : sym ∈ st.subscriptions
    · rw [if_pos hmem]
      intro dta h
      exact SubOutcome.noConfusion h
    · rw [if_neg hmem]
      dsimp only [get_request_id]
      rcases hswr : send_with_response env { st with request_id := st.request_id + 1 }
          (.subscribeMsg (mkRequestId (st.request_id + 1) nowMs) sym)
          (mkRequestId (st.request_id + 1) nowMs) 5 w with ⟨res, st₂, ss⟩
      rw [hswr] at hsubs
      cases res with
      | ok dta' =>
        intro dta h
        show setAdd st₂.subscriptions sym = setAdd st.subscriptions sym
        rw [hsubs]
      | error e' => intro dta h; exact SubOutcome.noConfusion h
  · unfold unsubscribe
    by_cases hmem : sym ∉ st.subscriptions
    · rw [if_pos hmem]
      intro e h
      exact SubOutcome.noConfusion h
    · rw [if_neg hmem]
      dsimp only [get_request_id]
      rcases hswr : send_with_response env { st with request_id := st.request_id + 1 }
          (.unsubscribeMsg (mkRequestId (st.request_id + 1) nowMs) sym)
          (mkRequestId (st.request_id + 1) nowMs) 5 w with ⟨res, st₂, ss⟩
      rw [hswr] at hsubs'
      cases res with
      | ok dta' => intro e h; exact SubOutcome.noConfusion h
      | error e' => intro e h; exact hsubs'
  · unfold unsubscribe
    by_cases hmem : sym ∉ st.subscriptions
    · rw [if_pos hmem]
      intro dta h
      exact SubOutcome.noConfusion h
    · rw [if_neg hmem]
      dsimp only [get_request_id]
      rcases hswr : send_with_response env { st with request_id := st.request_id + 1 }
          (.unsubscribeMsg (mkRequestId (st.request_id + 1) nowMs) sym)
          (mkRequestId (st.request_id + 1) nowMs) 5 w with ⟨res, st₂, ss⟩
      rw [hswr] at hsubs'
      cases res with
      | ok dta' =>
        intro dta h
        show setDiscard st₂.subscriptions sym = setDiscard st.subscriptions sym
        rw [hsubs']
      | error e' => intro dta h; exact SubOutcome.noConfusion h

/-- C6 applied at a concrete input (a silent broker: timeout, registry
untouched; conclusion instantiated from the general theorem). -/
theorem registry_updated_on_ack_witness :
    (∀ e, (subscribe env0 stReady "MES" 0 .silent).1 = .errorOut e "MES" →
      (subscribe env0 stReady "MES" 0 .silent).2.1.subscriptions =
        stReady.subscriptions) ∧
    (∀ dta, (subscribe env0 stReady "MES" 0 .silent).1 = .subscribed "MES" dta →
      (subscribe env0 stReady "MES" 0 .silent).2.1.subscriptions =
        setAdd stReady.subscriptions "MES") ∧
    (∀ e, (unsubscribe env0 stReady "MES" 0 .silent).1 = .errorOut e "MES" →
      (unsubscribe env0 stReady "MES" 0 .silent).2.1.subscriptions =
        stReady.subscriptions) ∧
    (∀ dta, (unsubscribe env0 stReady "MES" 0 .silent).1 =
        .unsubscribed "MES" dta →
      (unsubscribe env0 stReady "MES" 0 .silent).2.1.subscriptions =
        setDiscard stReady.subscriptions "MES") :=
  registry_updated_on_ack env0 stReady "MES" 0 .silent

/-- The broker's error reply to the request with id `req_1_0`. -/
def errD : MsgData := ⟨some "error", some (mkRequestId 1 0), "", some "bad symbol"⟩

/-- C6 counterexample: a correlated broker **error** response still
updates the registry. A ready client with an empty registry subscribes to
"MES"; the broker answers the request's correlation id with an
error-typed payload; `subscribe` reports success and adds "MES" — the
claim's "broker error leaves the set unchanged" is false on the code. -/
theorem registry_error_ack_cex :
    errD.type? = some "error" ∧
    stReady.subscriptions = [] ∧
    (subscribe env0 stReady "MES" 0 (.reply errD 0)).1 = .subscribed "MES" errD ∧
    (subscribe env0 stReady "MES" 0 (.reply errD 0)).2.1.subscriptions = ["MES"] :=
  ⟨rfl, rfl, rfl, rfl⟩

/-! ### C10: guard short-circuits of subscribe/unsubscribe -/

/-- C10: subscribing to a symbol already in the registry returns the
`already_subscribed` outcome, and unsubscribing from an absent symbol
returns the `not_subscribed` outcome; in both cases the whole client
state — registry and pending-request table included — is returned
unchanged and nothing is sent. -/
theorem subscription_guard (env : HandlerEnv) (st : ClientState)
    (sym₁ sym₂ : String) (nowMs₁ nowMs₂ : Nat) (w₁ w₂ : Wire)
    (h1 : sym₁ ∈ st.subscriptions) (h2 : sym₂ ∉ st.subscriptions) :
    subscribe env st sym₁ nowMs₁ w₁ = (.alreadySubscribed sym₁, st, []) ∧
    unsubscribe env st sym₂ nowMs₂ w₂ = (.notSubscribed sym₂, st, []) := by
  constructor
  · unfold subscribe
    rw [if_pos h1]
  · unfold unsubscribe
    rw [if_pos h2]

/-- C10 at a concrete input: a client subscribed to "MES" only. -/
theorem subscription_guard_witness :
    "MES" ∈ stSub.subscriptions ∧ "NQ" ∉ stSub.subscriptions ∧
    (subscribe env0 stSub "MES" 0 .silent = (.alreadySubscribed "MES", stSub, []) ∧
      unsubscribe env0 stSub "NQ" 0 .silent = (.notSubscribed "NQ", stSub, [])) :=
  ⟨by decide, by decide,
    subscription_guard env0 stSub "MES" "NQ" 0 0 .silent .silent
      (by decide) (by decide)⟩

/-! ### C9: correlation-id uniqueness -/

/-- Reading the rendered digits back recovers the number. -/
lemma decDigits_fold (fuel : Nat) :
    ∀ n, n ≤ fuel → (decDigits fuel n).foldr (fun d r => d + 10 * r) 0 = n := by
  induction fuel with
  | zero =>
    intro n hn
    have h0 : n = 0 := Nat.le_zero.mp hn
    subst h0
    rfl
  | succ f ih =>
    intro n hn
    by_cases h0 : n = 0
    · subst h0
      rfl
    · have hpos : 0 < n := Nat.pos_of_ne_zero h0
      have hlt : n / 10 < n := Nat.div_lt_self hpos (by norm_num)
      simp only [decDigits, if_neg h0, List.foldr_cons]
      rw [ih (n / 10) (by omega)]
      exact Nat.mod_add_div n 10

/-- Every rendered digit is below ten. -/
lemma decDigits_lt (fuel : Nat) : ∀ n d, d ∈ decDigits fuel n → d < 10 := by
  induction fuel with
  | zero =>
    intro n d hd
    exact absurd hd (by simp [decDigits])
  | succ f ih =>
    intro n d hd
    by_cases h0 : n = 0
    · subst h0
      simp [decDigits] at hd
    · simp only [decDigits, if_neg h0, List.mem_cons] at hd
      rcases hd with h | h
      · subst h
        exact Nat.mod_lt _ (by norm_num)
      · exact ih _ _ h

/-- Digit rendering by `Nat.digitChar` is injective on digits. -/
lemma digitChar_inj_lt : ∀ a, a < 10 → ∀ b, b < 10 →
    Nat.digitChar a = Nat.digitChar b → a = b := by decide

/-- No digit renders as the underscore separator. -/
lemma digitChar_ne_us : ∀ a, a < 10 → Nat.digitChar a ≠ '_' := by decide

/-- Digit-character lists determine the digit lists. -/
lemma map_digitChar_inj : ∀ l₁ l₂ : List Nat, (∀ d ∈ l₁, d < 10) →
    (∀ d ∈ l₂, d < 10) → l₁.map Nat.digitChar = l₂.map Nat.digitChar → l₁ = l₂ := by
  intro l₁
  induction l₁ with
  | nil =>
    intro l₂ _ _ h
    cases l₂ with
    | nil => rfl
    | cons b bs => simp at h
  | cons a as ih =>
    intro l₂ h₁ h₂ h
    cases l₂ with
    | nil => simp at h
    | cons b bs =>
      simp only [List.map_cons, List.cons.injEq] at h
      have ha := digitChar_inj_lt a (h₁ a (by simp)) b (h₂ b (by simp)) h.1
      rw [ha, ih bs (fun d hd => h₁ d (by simp [hd])) (fun d hd => h₂ d (by simp [hd])) h.2]

/-- The decimal rendering is injective. -/
lemma decRepr_inj (m n : Nat) (h : decRepr m = decRepr n) : m = n := by
  unfold decRepr at h
  by_cases hm : m = 0 <;> by_cases hn : n = 0
  · rw [hm, hn]
  · exfalso
    rw [if_pos hm, if_neg hn] at h
    have hd := congrArg String.data h
    change ['0'] = (decDigits n n).reverse.map Nat.digitChar at hd
    have hrev : ([0] : List Nat) = (decDigits n n).reverse :=
      map_digitChar_inj [0] _ (by simp)
        (fun d hd' => decDigits_lt n n d (List.mem_reverse.mp hd')) hd
    have hlist : decDigits n n = [0] := by
      have := congrArg List.reverse hrev
      simpa using this.symm
    have hfold := decDigits_fold n n le_rfl
    rw [hlist] at hfold
    simp at hfold
    exact hn hfold.symm
  · exfalso
    rw [if_neg hm, if_pos hn] at h
    have hd := congrArg String.data h
    change (decDigits m m).reverse.map Nat.digitChar = ['0'] at hd
    have hrev : (decDigits m m).reverse = ([0] : List Nat) :=
      map_digitChar_inj _ [0]
        (fun d hd' => decDigits_lt m m d (List.mem_reverse.mp hd')) (by simp) hd
    have hlist : decDigits m m = [0] := by
      have := congrArg List.reverse hrev
      simpa using this
    have hfold := decDigits_fold m m le_rfl
    rw [hlist] at hfold
    simp at hfold
    exact hm hfold.symm
  · rw [if_neg hm, if_neg hn] at h
    have hd := congrArg String.data h
    change (decDigits m m).reverse.map Nat.digitChar =
      (decDigits n n).reverse.map Nat.digitChar at hd
    have hrev := map_digitChar_inj _ _
      (fun d hd' => decDigits_lt m m d (List.mem_reverse.mp hd'))
      (fun d hd' => decDigits_lt n n d (List.mem_reverse.mp hd')) hd
    have hlist : decDigits m m = decDigits n n := by
      have := congrArg List.reverse hrev
      simpa using this
    have h1 := decDigits_fold m m le_rfl
    have h2 := decDigits_fold n n le_rfl
    rw [hlist] at h1
    exact h1.symm.trans h2

/-- The decimal rendering never contains the underscore separator. -/
lemma decRepr_no_us (n : Nat) : ∀ c ∈ (decRepr n).data, c ≠ '_' := by
  unfold decRepr
  by_cases h0 : n = 0
  · rw [if_pos h0]
    intro c hc
    have : c = '0' := by simpa using hc
    subst this
    decide
  · rw [if_neg h0]
    intro c hc
    change c ∈ (decDigits n n).reverse.map Nat.digitChar at hc
    obtain ⟨d, hd, rfl⟩ := List.mem_map.mp hc
    exact digitChar_ne_us d (decDigits_lt n n d (List.mem_reverse.mp hd))

/-- Splitting at the first underscore is unambiguous when neither prefix
contains one. -/
lemma no_us_split : ∀ (xs ys as bs : List Char),
    (∀ c ∈ xs, c ≠ '_') → (∀ c ∈ ys, c ≠ '_') →
    xs ++ '_' :: as = ys ++ '_' :: bs → xs = ys ∧ as = bs := by
  intro xs
  induction xs with
  | nil =>
    intro ys as bs _ hy h
    cases ys with
    | nil =>
      simp only [List.nil_append, List.cons.injEq, true_and] at h
      exact ⟨rfl, h⟩
    | cons y ys' =>
      exfalso
      simp only [List.nil_append, List.cons_append, List.cons.injEq] at h
      exact hy y (by simp) h.1.symm
  | cons x xs' ih =>
    intro ys as bs hx hy h
    cases ys with
    | nil =>
      exfalso
      simp only [List.cons_append, List.nil_append, List.cons.injEq] at h
      exact hx x (by simp) h.1
    | cons y ys' =>
      simp only [List.cons_append, List.cons.injEq] at h
      obtain ⟨h1, h2⟩ := h
      obtain ⟨hxs, has⟩ := ih ys' as bs (fun c hc => hx c (by simp [hc]))
        (fun c hc => hy c (by simp [hc])) h2
      exact ⟨by rw [h1, hxs], has⟩

/-- The character data of a generated correlation id. -/
lemma mkRequestId_data (n ts : Nat) :
    (mkRequestId n ts).data =
      'r' :: 'e' :: 'q' :: '_' :: ((decRepr n).data ++ '_' :: (decRepr ts).data) := by
  show ("req_".data ++ (decRepr n).data ++ "_".data ++ (decRepr ts).data) = _
  simp

/-- Two ids with different counters differ, whatever the timestamps. -/
lemma mkRequestId_inj_counter (a b x y : Nat) (h : mkRequestId a x = mkRequestId b y) :
    a = b := by
  have hd := congrArg String.data h
  rw [mkRequestId_data, mkRequestId_data] at hd
  simp only [List.cons.injEq, true_and] at hd
  obtain ⟨h1, -⟩ := no_us_split _ _ _ _ (decRepr_no_us a) (decRepr_no_us b) hd
  exact decRepr_inj a b (congrArg String.mk h1)

/-- Generated ids are never the empty (falsy) string. -/
lemma mkRequestId_ne_empty (n ts : Nat) : mkRequestId n ts ≠ "" := by
  intro h
  have hd := congrArg String.data h
  rw [mkRequestId_data] at hd
  exact absurd hd (by simp)

/-- Every id issued after state `st` carries a counter strictly above
`st.request_id`, and the counter advances by one per call. -/
lemma genIds_counters (st : ClientState) (tss : List Nat) :
    (∀ r ∈ (genIds st tss).1, ∃ c t, st.request_id < c ∧ r = mkRequestId c t) ∧
    (genIds st tss).2.request_id = st.request_id + tss.length := by
  induction tss generalizing st with
  | nil => exact ⟨by simp [genIds], by simp [genIds]⟩
  | cons t ts ih =>
    obtain ⟨hmem, hlen⟩ := ih { st with request_id := st.request_id + 1 }
    constructor
    · intro r hr
      rcases List.mem_cons.mp hr with h | h
      · exact ⟨st.request_id + 1, t, Nat.lt_succ_self _, h⟩
      · obtain ⟨c, t', hc, rfl⟩ := hmem r h
        have hc' : st.request_id + 1 < c := hc
        exact ⟨c, t', by omega, rfl⟩
    · show (genIds { st with request_id := st.request_id + 1 } ts).2.request_id = _
      rw [hlen]
      simp [Nat.add_comm, Nat.add_assoc, Nat.add_left_comm]

/-- C9: correlation ids are unique within a session. Iterating the id
generator from any state, with arbitrary timestamps (collisions
included), yields pairwise distinct ids because the sequence counter
strictly increases; and when every live key of the pending-request table
was built by an earlier generator call (counter at most the current
one), the next generated id cannot collide with any live key. -/
theorem correlation_ids_unique (st : ClientState) (tss : List Nat) (nowMs : Nat) :
    (genIds st tss).1.Pairwise (· ≠ ·) ∧
    (genIds st tss).2.request_id = st.request_id + tss.length ∧
    ((∀ e ∈ st.pending_requests, e.live = true →
        ∃ c t, c ≤ st.request_id ∧ e.rid = mkRequestId c t) →
      ∀ e ∈ st.pending_requests, e.live = true →
        e.rid ≠ (get_request_id st nowMs).1) := by
  refine ⟨?_, (genIds_counters st tss).2, ?_⟩
  · induction tss generalizing st with
    | nil => simp [genIds]
    | cons t ts ih =>
      rw [show (genIds st (t :: ts)).1 =
        mkRequestId (st.request_id + 1) t ::
          (genIds { st with request_id := st.request_id + 1 } ts).1 from rfl]
      rw [List.pairwise_cons]
      refine ⟨?_, ih _⟩
      intro r hr he
      obtain ⟨c, t', hc, rfl⟩ :=
        (genIds_counters { st with request_id := st.request_id + 1 } ts).1 r hr
      have hcc := mkRequestId_inj_counter _ _ _ _ he
      simp only at hc
      omega
  · intro hall e he hlive heq
    obtain ⟨c, t, hc, hrid⟩ := hall e he hlive
    rw [hrid] at heq
    have := mkRequestId_inj_counter c (st.request_id + 1) t nowMs heq
    omega

/-- C9 at a concrete input: two generator calls from a state whose only
live pending key came from an earlier call. -/
theorem correlation_ids_unique_witness :
    (genIds stPend [0, 7]).1.Pairwise (· ≠ ·) ∧
    (genIds stPend [0, 7]).2.request_id = stPend.request_id + [0, 7].length ∧
    ((∀ e ∈ stPend.pending_requests, e.live = true →
        ∃ c t, c ≤ stPend.request_id ∧ e.rid = mkRequestId c t) →
      ∀ e ∈ stPend.pending_requests, e.live = true →
        e.rid ≠ (get_request_id stPend 5).1) :=
  correlation_ids_unique stPend [0, 7] 5

/-! ### C8: adding a subscription is idempotent -/

/-- Adding a symbol already present is a no-op on the set. -/
lemma setAdd_mem (l : List String) (x : String) (hx : x ∈ l) : setAdd l x = l := by
  unfold setAdd
  rw [if_pos hx]

/-- A subscribe call for an already-registered symbol short-circuits. -/
lemma subscribe_mem (env : HandlerEnv) (st : ClientState) (sym : String)
    (nowMs : Nat) (w : Wire) (hmem : sym ∈ st.subscriptions) :
    subscribe env st sym nowMs w = (.alreadySubscribed sym, st, []) := by
  unfold subscribe
  rw [if_pos hmem]

/-- C8: after two subscribe calls for the same symbol the registry holds
the symbol exactly once. Sequentially, the second call short-circuits
with `already_subscribed` and changes nothing; and even when both calls
pass the membership guard before either add runs (the concurrent
double-acknowledgment interleaving), the set add is idempotent:
`setAdd (setAdd s sym) sym` also counts the symbol once. -/
theorem subscribe_idempotent (env : HandlerEnv) (st : ClientState) (sym : String)
    (nowMs₁ nowMs₂ : Nat) (d : MsgData) (t : Nat) (w₂ : Wire)
    (hc : is_connected st = true)
    (h0 : sym ∉ st.subscriptions)
    (hf : ∀ e ∈ st.pending_requests, e.rid ≠ mkRequestId (st.request_id + 1) nowMs₁)
    (hd : d.requestId? = some (mkRequestId (st.request_id + 1) nowMs₁))
    (ht : t < 5) :
    (subscribe env st sym nowMs₁ (.reply d t)).1 = .subscribed sym d ∧
    (subscribe env st sym nowMs₁ (.reply d t)).2.1.subscriptions =
      st.subscriptions ++ [sym] ∧
    (subscribe env (subscribe env st sym nowMs₁ (.reply d t)).2.1 sym nowMs₂ w₂).1 =
      .alreadySubscribed sym ∧
    (subscribe env (subscribe env st sym nowMs₁ (.reply d t)).2.1 sym
        nowMs₂ w₂).2.1.subscriptions.count sym = 1 ∧
    (setAdd (setAdd st.subscriptions sym) sym).count sym = 1 := by
  have hset : setAdd st.subscriptions sym = st.subscriptions ++ [sym] := by
    unfold setAdd
    rw [if_neg h0]
  have hcount : (st.subscriptions ++ [sym]).count sym = 1 := by
    rw [List.count_append, List.count_eq_zero.mpr h0]
    simp
  have key : subscribe env st sym nowMs₁ (.reply d t) =
      (.subscribed sym d,
        { st with
          subscriptions := setAdd st.subscriptions sym
          pending_requests := st.pending_requests ++
            [⟨mkRequestId (st.request_id + 1) nowMs₁, false, .result d⟩]
          request_id := st.request_id + 1 },
        [.subscribeMsg (mkRequestId (st.request_id + 1) nowMs₁) sym]) := by
    unfold subscribe
    rw [if_neg h0]
    dsimp only [get_request_id]
    rw [swr_correlated env { st with request_id := st.request_id + 1 }
      (.subscribeMsg (mkRequestId (st.request_id + 1) nowMs₁) sym)
      (mkRequestId (st.request_id + 1) nowMs₁) 5 d t hc hf
      (mkRequestId_ne_empty _ _) hd ht]
  have hmem : sym ∈ setAdd st.subscriptions sym := by
    rw [hset]
    simp
  have hmemP : sym ∈ (subscribe env st sym nowMs₁ (.reply d t)).2.1.subscriptions := by
    rw [key]
    exact hmem
  have key2 := subscribe_mem env (subscribe env st sym nowMs₁ (.reply d t)).2.1
    sym nowMs₂ w₂ hmemP
  refine ⟨by rw [key], by rw [key]; exact hset, by rw [key2], ?_, ?_⟩
  · rw [key2, key]
    show (setAdd st.subscriptions sym).count sym = 1
    rw [hset]
    exact hcount
  · rw [setAdd_mem _ _ hmem, hset]
    exact hcount

/-- C8 at a concrete input: a ready client subscribes twice to "MES";
the broker acknowledges the first request with a correlated response. -/
theorem subscribe_idempotent_witness :
    is_connected stReady = true ∧
    "MES" ∉ stReady.subscriptions ∧
    (∀ e ∈ stReady.pending_requests,
      e.rid ≠ mkRequestId (stReady.request_id + 1) 0) ∧
    msg0.requestId? = some (mkRequestId (stReady.request_id + 1) 0) ∧
    0 < 5 ∧
    ((subscribe env0 stReady "MES" 0 (.reply msg0 0)).1 = .subscribed "MES" msg0 ∧
    (subscribe env0 stReady "MES" 0 (.reply msg0 0)).2.1.subscriptions =
      stReady.subscriptions ++ ["MES"] ∧
    (subscribe env0 (subscribe env0 stReady "MES" 0 (.reply msg0 0)).2.1 "MES" 1
        .silent).1 = .alreadySubscribed "MES" ∧
    (subscribe env0 (subscribe env0 stReady "MES" 0 (.reply msg0 0)).2.1 "MES" 1
        .silent).2.1.subscriptions.count "MES" = 1 ∧
    (setAdd (setAdd stReady.subscriptions "MES") "MES").count "MES" = 1) :=
  ⟨rfl, by decide, by simp [stReady], rfl, by decide,
    subscribe_idempotent env0 stReady "MES" 0 1 msg0 0 .silent rfl (by decide)
      (by simp [stReady]) rfl (by decide)⟩

end Ironbeam
